import Mathlib

/-!
Verification of the Affiplayer media-player repository.

This file shallowly embeds the parts of the source that the spec's claims
are about:

* the touch/mouse gesture handlers of the full-screen player
  (`src/components/VideoPlayer.tsx`: `handleTouchStart`, `handleTouchMove`,
  `handleTouchEnd`, the long-press timer callback and the sleep-timer
  effect), modelled as pure step functions over an explicit session state,
  player state and an emitted list of media-element effects;
* the Google-Sheet CSV fetcher (`src/utils/googleSheet.ts`), modelled at
  the row level (the network transport is out of scope, the parse logic is
  embedded faithfully including the quote-aware comma split);
* the remote-catalog cache policy and the settings-merge initializer of
  the `App` component.

Pixel coordinates, times and media quantities are modelled as `Rat`
(JS numbers on the code paths in question stay exact rationals); timestamps
in milliseconds as `Int`.
-/

namespace Affiplayer

/-! ## Gesture state machine (src/components/VideoPlayer.tsx) -/

/-- `GestureAction` enum from `src/types.ts`. -/
inductive GestureAction where
  | NONE
  | VOLUME
  | BRIGHTNESS
  | SEEK
  | ZOOM
deriving DecidableEq, Repr

/-- The `gesture` React state of `VideoPlayer` (the `active` field is always
`true` whenever the state is non-null, and the display `text` is a pure
function of `value`/`delta`, so both are omitted). -/
structure Gesture where
  type : GestureAction
  value : Rat
  delta : Rat
deriving DecidableEq, Repr

/-- The fields of `PlayerState` (src/types.ts) that the gesture handlers
read or write. -/
structure PlayerState where
  playing : Bool
  currentTime : Rat
  duration : Rat
  volume : Rat
  brightness : Rat
  playbackRate : Rat
  showControls : Bool
  isLocked : Bool
  scale : Rat
deriving DecidableEq, Repr

/-- `touchStartRef.current` payload. -/
structure TouchPoint where
  x : Rat
  y : Rat
  time : Int
deriving DecidableEq, Repr

/-- The mutable refs of `VideoPlayer` that make up one pointer session:
`lastTapRef`, `touchStartRef`, the `gesture` state, `initialValueRef`,
`pinchStartDistRef`, `initialScaleRef`, `longPressTimerRef` (modelled as
the Boolean `longPressArmed`: the timer is pending), `isLongPressingRef`
and `savedSpeedRef`. -/
structure Session where
  lastTap : Int
  touchStart : Option TouchPoint
  gesture : Option Gesture
  initialValue : Rat
  pinchStartDist : Rat
  initialScale : Rat
  longPressArmed : Bool
  isLongPressing : Bool
  savedSpeed : Rat
deriving DecidableEq, Repr

/-- Component-level inputs that the handlers read: container dimensions
(`containerRef.current.clientWidth`/`clientHeight`), the `seekTime` prop,
the `sensitivity` state and the `showSettings` state. -/
structure Env where
  width : Rat
  height : Rat
  seekTime : Rat
  sensVolume : Rat
  sensBrightness : Rat
  sensSeek : Rat
  showSettings : Bool
deriving DecidableEq, Repr

/-- Imperative actions the handlers perform on the media element or via
`handleSeek`/`togglePlay`. -/
inductive Eff where
  | seek (t : Rat)
  | setVolume (v : Rat)
  | setRate (r : Rat)
  | togglePlay
deriving DecidableEq, Repr

/-- `DOUBLE_TAP_DELAY` from `src/constants.ts` (ms). -/
def DOUBLE_TAP_DELAY : Int := 300

/-- Shared tail of `handleTouchStart` after the double-tap check falls
through: records `lastTapRef.current = now`, `resetControlsTimer()`,
`touchStartRef.current = {x, y, time: now}`, then either enters the pinch
branch (two touch points, `pinch = some d` carries their distance) or arms
the long-press timer.  Lines 309-337 of `VideoPlayer.tsx`. -/
def touchStartRest (ps : PlayerState) (s : Session) (now : Int)
    (clientX clientY : Rat) (pinch : Option Rat) :
    Session × PlayerState × List Eff :=
  let s := { s with lastTap := now }
  let ps := { ps with showControls := true }
  let s := { s with touchStart := some ⟨clientX, clientY, now⟩ }
  match pinch with
  | some d =>
      ({ s with pinchStartDist := d, initialScale := ps.scale,
                gesture := some ⟨GestureAction.ZOOM, ps.scale, 0⟩ }, ps, [])
  | none =>
      ({ s with savedSpeed := ps.playbackRate, longPressArmed := true }, ps, [])

/-- `handleTouchStart` (lines 283-337 of `VideoPlayer.tsx`).  `pinch` is
`some d` when the event carries two touch points at distance `d`. -/
def handleTouchStart (env : Env) (ps : PlayerState) (s : Session)
    (now : Int) (clientX clientY : Rat) (pinch : Option Rat) :
    Session × PlayerState × List Eff :=
  if ps.isLocked then (s, ps, [])
  else
    let width := env.width
    if now - s.lastTap < DOUBLE_TAP_DELAY ∧ env.showSettings = false then
      if clientX < width * (3 / 10) then
        let t := max 0 (ps.currentTime - env.seekTime)
        ({ s with lastTap := 0, longPressArmed := false },
         { ps with currentTime := t, showControls := true }, [Eff.seek t])
      else if clientX > width * (7 / 10) then
        let t := min ps.duration (ps.currentTime + env.seekTime)
        ({ s with lastTap := 0, longPressArmed := false },
         { ps with currentTime := t, showControls := true }, [Eff.seek t])
      else
        touchStartRest ps s now clientX clientY pinch
    else
      touchStartRest ps s now clientX clientY pinch

/-- `handleTouchMove` (lines 339-399 of `VideoPlayer.tsx`).  The container
dimensions go through the source's `|| 1` fallback. -/
def handleTouchMove (env : Env) (ps : PlayerState) (s : Session)
    (clientX clientY : Rat) (pinch : Option Rat) :
    Session × PlayerState × List Eff :=
  if ps.isLocked ∨ s.touchStart = none ∨ env.showSettings then (s, ps, [])
  else
    match s.touchStart with
    | none => (s, ps, [])
    | some start =>
      let deltaX := clientX - start.x
      let deltaY := start.y - clientY
      let s := if |deltaX| > 10 ∨ |deltaY| > 10 then
                 { s with longPressArmed := false } else s
      if s.isLongPressing then (s, ps, [])
      else
        match pinch with
        | some d =>
            let scale := min (max (1 / 2) (s.initialScale * (d / s.pinchStartDist))) 4
            (s, { ps with scale := scale }, [])
        | none =>
          let width := if env.width = 0 then 1 else env.width
          let height := if env.height = 0 then 1 else env.height
          let cg0 := match s.gesture with
                     | some g => g.type
                     | none => GestureAction.NONE
          let currentGesture :=
            if cg0 = GestureAction.NONE then
              if |deltaX| > |deltaY| then
                if |deltaX| > 20 then GestureAction.SEEK else GestureAction.NONE
              else
                if |deltaY| > 20 then
                  if start.x < width / 2 then GestureAction.BRIGHTNESS
                  else GestureAction.VOLUME
                else GestureAction.NONE
            else cg0
          match currentGesture with
          | GestureAction.BRIGHTNESS =>
              let iv := if s.gesture.isNone then ps.brightness else s.initialValue
              let newVal := max 0 (min 1 (iv + deltaY / height * env.sensBrightness))
              ({ s with initialValue := iv,
                        gesture := some ⟨GestureAction.BRIGHTNESS, newVal, 0⟩ },
               { ps with brightness := newVal }, [])
          | GestureAction.VOLUME =>
              let iv := if s.gesture.isNone then ps.volume else s.initialValue
              let newVal := max 0 (min 1 (iv + deltaY / height * env.sensVolume))
              ({ s with initialValue := iv,
                        gesture := some ⟨GestureAction.VOLUME, newVal, 0⟩ },
               { ps with volume := newVal }, [Eff.setVolume newVal])
          | GestureAction.SEEK =>
              let iv := if s.gesture.isNone then ps.currentTime else s.initialValue
              let seekDelta := deltaX / width * 90 * env.sensSeek
              let newVal := max 0 (min ps.duration (iv + seekDelta))
              ({ s with initialValue := iv,
                        gesture := some ⟨GestureAction.SEEK, newVal, seekDelta⟩ },
               ps, [])
          | _ => (s, ps, [])

/-- `handleTouchEnd` (lines 401-441 of `VideoPlayer.tsx`). -/
def handleTouchEnd (env : Env) (ps : PlayerState) (s : Session) (now : Int) :
    Session × PlayerState × List Eff :=
  let s := { s with longPressArmed := false }
  if s.isLongPressing then
    ({ s with isLongPressing := false, touchStart := none },
     { ps with playbackRate := s.savedSpeed }, [Eff.setRate s.savedSpeed])
  else
    match s.gesture with
    | some g =>
        if g.type = GestureAction.SEEK then
          ({ s with gesture := none, touchStart := none },
           { ps with currentTime := g.value, showControls := true },
           [Eff.seek g.value])
        else
          ({ s with gesture := none, touchStart := none }, ps, [])
    | none =>
      match s.touchStart with
      | some start =>
          let width := if env.width = 0 then 1 else env.width
          let tapDuration := now - start.time
          if tapDuration < 200 then
            let xPct := start.x / width
            if 3 / 10 < xPct ∧ xPct < 7 / 10 then
              ({ s with touchStart := none },
               { ps with showControls := true }, [Eff.togglePlay])
            else
              ({ s with touchStart := none },
               { ps with showControls := !ps.showControls }, [])
          else ({ s with touchStart := none }, ps, [])
      | none => ({ s with touchStart := none }, ps, [])

/-- The long-press `setTimeout` callback (lines 329-336 of
`VideoPlayer.tsx`).  It runs only if the timer was not cleared
(`longPressArmed`), and bails out if the touch already ended. -/
def handleLongPressFire (ps : PlayerState) (s : Session) :
    Session × PlayerState × List Eff :=
  if s.longPressArmed then
    match s.touchStart with
    | none => (s, ps, [])
    | some _ =>
        ({ s with isLongPressing := true },
         { ps with playbackRate := 2 }, [Eff.setRate 2])
  else (s, ps, [])

/-- Closed form of `handleTouchMove` when a fresh single-pointer drag is
classified as `SEEK` (horizontal displacement dominant and above 20px). -/
theorem touchMove_seek_eq (env : Env) (ps : PlayerState) (s : Session)
    (x y : Rat) (st : TouchPoint)
    (hlock : ps.isLocked = false) (hset : env.showSettings = false)
    (hts : s.touchStart = some st) (hg : s.gesture = none)
    (hlp : s.isLongPressing = false) (hw : env.width ≠ 0)
    (h1 : |st.y - y| < |x - st.x|) (h2 : 20 < |x - st.x|) :
    handleTouchMove env ps s x y none =
      ({ s with longPressArmed := false,
                initialValue := ps.currentTime,
                gesture := some ⟨GestureAction.SEEK,
                  max 0 (min ps.duration
                    (ps.currentTime + (x - st.x) / env.width * 90 * env.sensSeek)),
                  (x - st.x) / env.width * 90 * env.sensSeek⟩ }, ps, []) := by
  unfold handleTouchMove
  rw [if_neg (by simp [hlock, hts, hset]), hts]
  dsimp only
  rw [if_pos (Or.inl (lt_trans (by norm_num) h2))]
  rw [if_neg (show ¬ (({ s with longPressArmed := false } : Session).isLongPressing = true) by
    simp [hlp])]
  dsimp only
  rw [hg]
  dsimp only
  rw [if_pos h1, if_pos h2, if_neg hw]
  rfl

/-- Closed form of `handleTouchMove` when a fresh single-pointer drag is
classified as `BRIGHTNESS` (vertical dominant, above 20px, left half). -/
theorem touchMove_brightness_eq (env : Env) (ps : PlayerState) (s : Session)
    (x y : Rat) (st : TouchPoint)
    (hlock : ps.isLocked = false) (hset : env.showSettings = false)
    (hts : s.touchStart = some st) (hg : s.gesture = none)
    (hlp : s.isLongPressing = false) (hw : env.width ≠ 0) (hh : env.height ≠ 0)
    (h1 : ¬ |st.y - y| < |x - st.x|) (h2 : 20 < |st.y - y|)
    (hhalf : st.x < env.width / 2) :
    handleTouchMove env ps s x y none =
      ({ s with longPressArmed := false,
                initialValue := ps.brightness,
                gesture := some ⟨GestureAction.BRIGHTNESS,
                  max 0 (min 1
                    (ps.brightness + (st.y - y) / env.height * env.sensBrightness)),
                  0⟩ },
       { ps with brightness := max 0 (min 1
           (ps.brightness + (st.y - y) / env.height * env.sensBrightness)) },
       []) := by
  unfold handleTouchMove
  rw [if_neg (by simp [hlock, hts, hset]), hts]
  dsimp only
  rw [if_pos (Or.inr (lt_trans (by norm_num) h2))]
  rw [if_neg (show ¬ (({ s with longPressArmed := false } : Session).isLongPressing = true) by
    simp [hlp])]
  dsimp only
  rw [hg]
  dsimp only
  rw [if_neg h1, if_pos h2, if_neg hw, if_pos hhalf, if_neg hh]
  rfl

/-- Closed form of `handleTouchMove` when a fresh single-pointer drag is
classified as `VOLUME` (vertical dominant, above 20px, right half). -/
theorem touchMove_volume_eq (env : Env) (ps : PlayerState) (s : Session)
    (x y : Rat) (st : TouchPoint)
    (hlock : ps.isLocked = false) (hset : env.showSettings = false)
    (hts : s.touchStart = some st) (hg : s.gesture = none)
    (hlp : s.isLongPressing = false) (hw : env.width ≠ 0) (hh : env.height ≠ 0)
    (h1 : ¬ |st.y - y| < |x - st.x|) (h2 : 20 < |st.y - y|)
    (hhalf : ¬ st.x < env.width / 2) :
    handleTouchMove env ps s x y none =
      ({ s with longPressArmed := false,
                initialValue := ps.volume,
                gesture := some ⟨GestureAction.VOLUME,
                  max 0 (min 1 (ps.volume + (st.y - y) / env.height * env.sensVolume)),
                  0⟩ },
       { ps with volume := max 0 (min 1
           (ps.volume + (st.y - y) / env.height * env.sensVolume)) },
       [Eff.setVolume (max 0 (min 1
           (ps.volume + (st.y - y) / env.height * env.sensVolume)))]) := by
  unfold handleTouchMove
  rw [if_neg (by simp [hlock, hts, hset]), hts]
  dsimp only
  rw [if_pos (Or.inr (lt_trans (by norm_num) h2))]
  rw [if_neg (show ¬ (({ s with longPressArmed := false } : Session).isLongPressing = true) by
    simp [hlp])]
  dsimp only
  rw [hg]
  dsimp only
  rw [if_neg h1, if_pos h2, if_neg hw, if_neg hhalf, if_neg hh]
  rfl

/-- A move of a session whose gesture is already `VOLUME` keeps accumulating
from the initial reference value captured at classification time, not from
the current volume. -/
theorem touchMove_volume_continue (env : Env) (ps : PlayerState) (s : Session)
    (x y vv dd : Rat) (st : TouchPoint)
    (hlock : ps.isLocked = false) (hset : env.showSettings = false)
    (hts : s.touchStart = some st)
    (hg : s.gesture = some ⟨GestureAction.VOLUME, vv, dd⟩)
    (hlp : s.isLongPressing = false) (hh : env.height ≠ 0) :
    (handleTouchMove env ps s x y none).2.1.volume
        = max 0 (min 1 (s.initialValue + (st.y - y) / env.height * env.sensVolume))
    ∧ (handleTouchMove env ps s x y none).2.2
        = [Eff.setVolume (max 0 (min 1
            (s.initialValue + (st.y - y) / env.height * env.sensVolume)))] := by
  unfold handleTouchMove
  rw [if_neg (by simp [hlock, hts, hset]), hts]
  dsimp only
  split
  all_goals first
    | rw [if_neg (show
        ¬ (({ s with longPressArmed := false } : Session).isLongPressing = true) by
          simp [hlp])]
    | rw [if_neg (show ¬ (s.isLongPressing = true) by simp [hlp])]
  all_goals rw [hg]
  all_goals simp only [if_neg hh]
  all_goals exact ⟨rfl, rfl⟩

/-- Pointer-up with a pending `SEEK` gesture commits the pending value as a
seek call (`handleSeek(gesture.value)`). -/
theorem touchEnd_commit_seek (env : Env) (ps : PlayerState) (s : Session)
    (now2 : Int) (v d : Rat)
    (hg : s.gesture = some ⟨GestureAction.SEEK, v, d⟩)
    (hlp : s.isLongPressing = false) :
    handleTouchEnd env ps s now2 =
      ({ s with longPressArmed := false, gesture := none, touchStart := none },
       { ps with currentTime := v, showControls := true }, [Eff.seek v]) := by
  unfold handleTouchEnd
  dsimp only
  rw [if_neg (show ¬ (s.isLongPressing = true) by simp [hlp]), hg]
  rfl

/-- Pointer-up with a pending `VOLUME` gesture just terminates the gesture:
no seek, no player-state change. -/
theorem touchEnd_volume_end (env : Env) (ps : PlayerState) (s : Session)
    (now2 : Int) (v d : Rat)
    (hg : s.gesture = some ⟨GestureAction.VOLUME, v, d⟩)
    (hlp : s.isLongPressing = false) :
    handleTouchEnd env ps s now2 =
      ({ s with longPressArmed := false, gesture := none, touchStart := none },
       ps, []) := by
  unfold handleTouchEnd
  dsimp only
  rw [if_neg (show ¬ (s.isLongPressing = true) by simp [hlp]), hg]
  rfl

/-- C2: once a pointer-drag session's gesture type is established as
something other than `NONE`, no later `handleTouchMove` of the session
changes it: the classification step only runs while the stored type is
still `NONE`, so every branch of the move handler preserves the type. -/
theorem gesture_classification_monotonic (env : Env) (ps : PlayerState)
    (s : Session) (x y : Rat) (pinch : Option Rat) (g : Gesture)
    (hg : s.gesture = some g) (hne : g.type ≠ GestureAction.NONE) :
    ((handleTouchMove env ps s x y pinch).1.gesture.map Gesture.type)
      = some g.type := by
  unfold handleTouchMove
  split
  · simp [hg]
  · split
    · simp [hg]
    · cases pinch with
      | some d =>
          dsimp only
          split <;> split <;> simp [hg]
      | none =>
          dsimp only
          split <;> split <;>
            cases hty : g.type <;>
              first
                | exact absurd hty hne
                | simp [hg, hty]

/-- Closed witness for C2: a concrete mid-session move keeps an
established `SEEK` classification. -/
theorem gesture_classification_monotonic_witness :
    ((handleTouchMove ⟨360, 640, 10, 1, 1, 1, false⟩
        ⟨true, 30, 300, 1, 1, 1, true, false, 1⟩
        ⟨0, some ⟨100, 100, 0⟩, some ⟨GestureAction.SEEK, 40, 10⟩, 30, 0, 1,
          false, false, 1⟩
        150 100 none).1.gesture.map Gesture.type)
      = some GestureAction.SEEK :=
  gesture_classification_monotonic _ _ _ _ _ _ _ rfl (by decide)

/-- C6: a pointer-down within `DOUBLE_TAP_DELAY` of the previous tap skips
back by the configured seek increment in the left zone (`x < 30%` of the
container width) and forward in the right zone (`x > 70%`), emitting
exactly one seek call and no play/pause toggle, short-circuiting the rest
of the touch-start logic; the skip target stays inside `[0, duration]`;
a tap in the middle band does not skip and proceeds as a normal
touch-start. -/
theorem double_tap_zone_skip (env : Env) (ps : PlayerState) (s : Session)
    (now : Int) (x y : Rat) (pinch : Option Rat)
    (hlock : ps.isLocked = false) (hset : env.showSettings = false)
    (htap : now - s.lastTap < DOUBLE_TAP_DELAY)
    (hct0 : 0 ≤ ps.currentTime) (hctd : ps.currentTime ≤ ps.duration)
    (hst : 0 ≤ env.seekTime) :
    (x < env.width * (3 / 10) →
        (handleTouchStart env ps s now x y pinch).2.2
            = [Eff.seek (max 0 (ps.currentTime - env.seekTime))]
      ∧ 0 ≤ max 0 (ps.currentTime - env.seekTime)
      ∧ max 0 (ps.currentTime - env.seekTime) ≤ ps.duration
      ∧ (handleTouchStart env ps s now x y pinch).1.touchStart = s.touchStart
      ∧ (handleTouchStart env ps s now x y pinch).1.gesture = s.gesture
      ∧ (handleTouchStart env ps s now x y pinch).1.longPressArmed = false
      ∧ (handleTouchStart env ps s now x y pinch).1.lastTap = 0)
  ∧ (x > env.width * (7 / 10) → ¬ x < env.width * (3 / 10) →
        (handleTouchStart env ps s now x y pinch).2.2
            = [Eff.seek (min ps.duration (ps.currentTime + env.seekTime))]
      ∧ 0 ≤ min ps.duration (ps.currentTime + env.seekTime)
      ∧ min ps.duration (ps.currentTime + env.seekTime) ≤ ps.duration
      ∧ (handleTouchStart env ps s now x y pinch).1.touchStart = s.touchStart
      ∧ (handleTouchStart env ps s now x y pinch).1.gesture = s.gesture
      ∧ (handleTouchStart env ps s now x y pinch).1.longPressArmed = false
      ∧ (handleTouchStart env ps s now x y pinch).1.lastTap = 0)
  ∧ (¬ x < env.width * (3 / 10) → ¬ x > env.width * (7 / 10) →
        (handleTouchStart env ps s now x y pinch).2.2 = []
      ∧ (handleTouchStart env ps s now x y pinch).1.touchStart
          = some ⟨x, y, now⟩) := by
  have hni : ¬ ps.isLocked = true := by simp [hlock]
  refine ⟨fun h1 => ?_, fun h2 h1 => ?_, fun h1 h2 => ?_⟩
  · have e : handleTouchStart env ps s now x y pinch
        = ({ s with lastTap := 0, longPressArmed := false },
           { ps with currentTime := max 0 (ps.currentTime - env.seekTime),
                     showControls := true },
           [Eff.seek (max 0 (ps.currentTime - env.seekTime))]) := by
      unfold handleTouchStart
      dsimp only
      rw [if_neg hni, if_pos ⟨htap, hset⟩, if_pos h1]
    rw [e]
    exact ⟨rfl, le_max_left 0 _,
      max_le (le_trans hct0 hctd) (le_trans (sub_le_self _ hst) hctd),
      rfl, rfl, rfl, rfl⟩
  · have e : handleTouchStart env ps s now x y pinch
        = ({ s with lastTap := 0, longPressArmed := false },
           { ps with currentTime := min ps.duration (ps.currentTime + env.seekTime),
                     showControls := true },
           [Eff.seek (min ps.duration (ps.currentTime + env.seekTime))]) := by
      unfold handleTouchStart
      dsimp only
      rw [if_neg hni, if_pos ⟨htap, hset⟩, if_neg h1, if_pos h2]
    rw [e]
    exact ⟨rfl,
      le_min (le_trans hct0 hctd) (le_trans hct0 (le_add_of_nonneg_right hst)),
      min_le_left _ _, rfl, rfl, rfl, rfl⟩
  · have e : handleTouchStart env ps s now x y pinch
        = touchStartRest ps s now x y pinch := by
      unfold handleTouchStart
      dsimp only
      rw [if_neg hni, if_pos ⟨htap, hset⟩, if_neg h1, if_neg h2]
    rw [e]
    unfold touchStartRest
    cases pinch <;> simp

/-- C5: the long-press speed boost.  A pointer-down (outside the double-tap
window) arms the timer and saves the current rate; the timer firing forces
the playback rate to 2.0; every move while the long press is engaged is
suppressed (player state and gesture untouched); pointer-up restores the
rate saved at pointer-down, with no seek, volume or brightness side effect
anywhere in the session; and a move of more than 10px before the timer
fires cancels the arm, making the timer callback a no-op. -/
theorem long_press_speed_boost (env : Env) (ps : PlayerState) (s : Session)
    (now now2 : Int) (x y x2 y2 x3 y3 : Rat)
    (hlock : ps.isLocked = false) (hset : env.showSettings = false)
    (htap : ¬ now - s.lastTap < DOUBLE_TAP_DELAY)
    (hmove : 10 < |x3 - x|) :
    let r1 := handleTouchStart env ps s now x y none
    let r2 := handleLongPressFire r1.2.1 r1.1
    let r3 := handleTouchMove env r2.2.1 r2.1 x2 y2 none
    let r4 := handleTouchEnd env r3.2.1 r3.1 now2
    let rm := handleTouchMove env r1.2.1 r1.1 x3 y3 none
    (r1.1.longPressArmed = true ∧ r1.1.savedSpeed = ps.playbackRate
       ∧ r1.1.isLongPressing = s.isLongPressing ∧ r1.2.2 = [])
  ∧ (r2.2.1.playbackRate = 2 ∧ r2.1.isLongPressing = true
       ∧ r2.2.2 = [Eff.setRate 2])
  ∧ (r3.2.1 = r2.2.1 ∧ r3.1.gesture = r2.1.gesture ∧ r3.2.2 = [])
  ∧ (r4.2.1 = { r3.2.1 with playbackRate := ps.playbackRate }
       ∧ r4.2.2 = [Eff.setRate ps.playbackRate]
       ∧ r4.2.1.currentTime = ps.currentTime ∧ r4.2.1.volume = ps.volume
       ∧ r4.2.1.brightness = ps.brightness)
  ∧ (rm.1.longPressArmed = false
       ∧ handleLongPressFire r1.2.1 rm.1 = (rm.1, r1.2.1, [])) := by
  intro r1 r2 r3 r4 rm
  have hni : ¬ ps.isLocked = true := by simp [hlock]
  have hcond : ¬ (now - s.lastTap < DOUBLE_TAP_DELAY ∧ env.showSettings = false) :=
    fun h => htap h.1
  have hr1 : r1 = ({ s with lastTap := now,
                            touchStart := some (TouchPoint.mk x y now),
                            savedSpeed := ps.playbackRate,
                            longPressArmed := true },
                   { ps with showControls := true }, []) := by
    show handleTouchStart env ps s now x y none = _
    unfold handleTouchStart touchStartRest
    dsimp only
    rw [if_neg hni, if_neg hcond]
  have hr2 : r2 = ({ s with lastTap := now,
                            touchStart := some (TouchPoint.mk x y now),
                            savedSpeed := ps.playbackRate,
                            longPressArmed := true,
                            isLongPressing := true },
                   { ps with showControls := true, playbackRate := 2 },
                   [Eff.setRate 2]) := by
    show handleLongPressFire r1.2.1 r1.1 = _
    rw [hr1]
    unfold handleLongPressFire
    rfl
  have hr3 : r3 = ({ s with lastTap := now,
                            touchStart := some (TouchPoint.mk x y now),
                            savedSpeed := ps.playbackRate,
                            longPressArmed := false,
                            isLongPressing := true }, r2.2.1, [])
      ∨ r3 = ({ s with lastTap := now,
                       touchStart := some (TouchPoint.mk x y now),
                       savedSpeed := ps.playbackRate,
                       longPressArmed := true,
                       isLongPressing := true }, r2.2.1, []) := by
    show handleTouchMove env r2.2.1 r2.1 x2 y2 none = _
        ∨ handleTouchMove env r2.2.1 r2.1 x2 y2 none = _
    rw [hr2]
    unfold handleTouchMove
    dsimp only
    rw [if_neg (by simp [hlock, hset])]
    split
    · left; rfl
    · right; rfl
  refine ⟨?_, ?_, ?_, ?_, ?_⟩
  · rw [hr1]; exact ⟨rfl, rfl, rfl, rfl⟩
  · rw [hr2]; exact ⟨rfl, rfl, rfl⟩
  · rcases hr3 with h | h <;> rw [h, hr2] <;> exact ⟨rfl, rfl, rfl⟩
  · show (handleTouchEnd env r3.2.1 r3.1 now2).2.1 = _
        ∧ (handleTouchEnd env r3.2.1 r3.1 now2).2.2 = _
        ∧ (handleTouchEnd env r3.2.1 r3.1 now2).2.1.currentTime = _
        ∧ (handleTouchEnd env r3.2.1 r3.1 now2).2.1.volume = _
        ∧ (handleTouchEnd env r3.2.1 r3.1 now2).2.1.brightness = _
    rcases hr3 with h | h <;> rw [h, hr2] <;> exact ⟨rfl, rfl, rfl, rfl, rfl⟩
  · have hrm : rm.1.longPressArmed = false := by
      show (handleTouchMove env r1.2.1 r1.1 x3 y3 none).1.longPressArmed = false
      rw [hr1]
      unfold handleTouchMove
      dsimp only
      rw [if_neg (by simp [hlock, hset]), if_pos (Or.inl hmove)]
      split
      · rfl
      · split <;> rfl
    refine ⟨hrm, ?_⟩
    unfold handleLongPressFire
    rw [if_neg (by rw [hrm]; simp)]

/-- C1: once the dominant displacement of a fresh single-pointer drag
exceeds the 20px threshold, the session is classified as exactly one of
SEEK (horizontal displacement strictly dominant), BRIGHTNESS (vertical
dominant, touch started on the left half) or VOLUME (vertical dominant,
right half); brightness and volume are applied to the player state live
during the drag as a clamped delta from the reference value captured at
drag start (also on later moves, via the stored `initialValue`), while a
SEEK move leaves the player state untouched and emits nothing, and only
pointer-up commits the pending value as an actual seek call. -/
theorem gesture_axis_classification (env : Env) (ps : PlayerState)
    (s : Session) (x y iv vv dd v d2 : Rat) (st : TouchPoint) (now2 : Int)
    (hlock : ps.isLocked = false) (hset : env.showSettings = false)
    (hts : s.touchStart = some st) (hg : s.gesture = none)
    (hlp : s.isLongPressing = false)
    (hw : env.width ≠ 0) (hh : env.height ≠ 0) :
    (20 < max |x - st.x| |st.y - y| →
        (|st.y - y| < |x - st.x|
           ∧ ((handleTouchMove env ps s x y none).1.gesture.map Gesture.type)
               = some GestureAction.SEEK)
      ∨ (¬ |st.y - y| < |x - st.x| ∧ st.x < env.width / 2
           ∧ ((handleTouchMove env ps s x y none).1.gesture.map Gesture.type)
               = some GestureAction.BRIGHTNESS)
      ∨ (¬ |st.y - y| < |x - st.x| ∧ ¬ st.x < env.width / 2
           ∧ ((handleTouchMove env ps s x y none).1.gesture.map Gesture.type)
               = some GestureAction.VOLUME))
  ∧ (|st.y - y| < |x - st.x| → 20 < |x - st.x| →
        (handleTouchMove env ps s x y none).2.1 = ps
      ∧ (handleTouchMove env ps s x y none).2.2 = []
      ∧ (handleTouchMove env ps s x y none).1.gesture
          = some ⟨GestureAction.SEEK,
              max 0 (min ps.duration
                (ps.currentTime + (x - st.x) / env.width * 90 * env.sensSeek)),
              (x - st.x) / env.width * 90 * env.sensSeek⟩)
  ∧ (¬ |st.y - y| < |x - st.x| → 20 < |st.y - y| → st.x < env.width / 2 →
        (handleTouchMove env ps s x y none).2.1
          = { ps with brightness := max 0 (min 1
                (ps.brightness + (st.y - y) / env.height * env.sensBrightness)) }
      ∧ (handleTouchMove env ps s x y none).2.2 = [])
  ∧ (¬ |st.y - y| < |x - st.x| → 20 < |st.y - y| → ¬ st.x < env.width / 2 →
        (handleTouchMove env ps s x y none).2.1
          = { ps with volume := max 0 (min 1
                (ps.volume + (st.y - y) / env.height * env.sensVolume)) }
      ∧ (handleTouchMove env ps s x y none).2.2
          = [Eff.setVolume (max 0 (min 1
              (ps.volume + (st.y - y) / env.height * env.sensVolume)))])
  ∧ ((handleTouchMove env ps
        { s with gesture := some ⟨GestureAction.VOLUME, vv, dd⟩,
                 initialValue := iv } x y none).2.1.volume
        = max 0 (min 1 (iv + (st.y - y) / env.height * env.sensVolume)))
  ∧ ((handleTouchEnd env ps
        { s with gesture := some ⟨GestureAction.SEEK, v, d2⟩ } now2).2.2
          = [Eff.seek v]
      ∧ (handleTouchEnd env ps
          { s with gesture := some ⟨GestureAction.SEEK, v, d2⟩ } now2).2.1.currentTime
          = v)
  ∧ ((handleTouchEnd env ps
        { s with gesture := some ⟨GestureAction.VOLUME, vv, dd⟩ } now2).2.2 = []
      ∧ (handleTouchEnd env ps
          { s with gesture := some ⟨GestureAction.VOLUME, vv, dd⟩ } now2).2.1
          = ps) := by
  refine ⟨?_, ?_, ?_, ?_, ?_, ?_, ?_⟩
  · intro hmax
    by_cases h1 : |st.y - y| < |x - st.x|
    · have h2 : 20 < |x - st.x| := by rwa [max_eq_left h1.le] at hmax
      refine Or.inl ⟨h1, ?_⟩
      rw [touchMove_seek_eq env ps s x y st hlock hset hts hg hlp hw h1 h2]
      rfl
    · have h2 : 20 < |st.y - y| := by
        rwa [max_eq_right (not_lt.mp h1)] at hmax
      by_cases hhalf : st.x < env.width / 2
      · refine Or.inr (Or.inl ⟨h1, hhalf, ?_⟩)
        rw [touchMove_brightness_eq env ps s x y st hlock hset hts hg hlp hw hh
          h1 h2 hhalf]
        rfl
      · refine Or.inr (Or.inr ⟨h1, hhalf, ?_⟩)
        rw [touchMove_volume_eq env ps s x y st hlock hset hts hg hlp hw hh
          h1 h2 hhalf]
        rfl
  · intro h1 h2
    rw [touchMove_seek_eq env ps s x y st hlock hset hts hg hlp hw h1 h2]
    exact ⟨rfl, rfl, rfl⟩
  · intro h1 h2 hhalf
    rw [touchMove_brightness_eq env ps s x y st hlock hset hts hg hlp hw hh
      h1 h2 hhalf]
    exact ⟨rfl, rfl⟩
  · intro h1 h2 hhalf
    rw [touchMove_volume_eq env ps s x y st hlock hset hts hg hlp hw hh
      h1 h2 hhalf]
    exact ⟨rfl, rfl⟩
  · exact (touchMove_volume_continue env ps
      { s with gesture := some ⟨GestureAction.VOLUME, vv, dd⟩,
               initialValue := iv } x y vv dd st hlock hset hts rfl hlp hh).1
  · rw [touchEnd_commit_seek env ps
      { s with gesture := some ⟨GestureAction.SEEK, v, d2⟩ } now2 v d2 rfl hlp]
    exact ⟨rfl, rfl⟩
  · rw [touchEnd_volume_end env ps
      { s with gesture := some ⟨GestureAction.VOLUME, vv, dd⟩ } now2 vv dd rfl hlp]
    exact ⟨rfl, rfl⟩

/-- Closed witness for C1: a 60px horizontal drag (dy = 0) on a fresh
session classifies as SEEK and leaves the player state and effect list
untouched. -/
theorem gesture_axis_classification_witness :
    (handleTouchMove ⟨1000, 500, 10, 1, 1, 1, false⟩
        ⟨true, 50, 300, 1/2, 4/5, 1, true, false, 1⟩
        ⟨0, some ⟨100, 200, 0⟩, none, 0, 0, 1, true, false, 1⟩
        160 200 none).2.1
      = ⟨true, 50, 300, 1/2, 4/5, 1, true, false, 1⟩
  ∧ (handleTouchMove ⟨1000, 500, 10, 1, 1, 1, false⟩
        ⟨true, 50, 300, 1/2, 4/5, 1, true, false, 1⟩
        ⟨0, some ⟨100, 200, 0⟩, none, 0, 0, 1, true, false, 1⟩
        160 200 none).2.2 = [] := by
  have h := gesture_axis_classification ⟨1000, 500, 10, 1, 1, 1, false⟩
    ⟨true, 50, 300, 1/2, 4/5, 1, true, false, 1⟩
    ⟨0, some ⟨100, 200, 0⟩, none, 0, 0, 1, true, false, 1⟩
    160 200 0 0 0 0 0 ⟨100, 200, 0⟩ 0
    rfl rfl rfl rfl rfl (by norm_num) (by norm_num)
  exact ⟨(h.2.1 (by norm_num) (by norm_num)).1,
         (h.2.1 (by norm_num) (by norm_num)).2.1⟩

/-- Concrete environment for the long-press and double-tap witnesses. -/
def envW : Env := ⟨1000, 500, 10, 1, 1, 1, false⟩

/-- Concrete player state for the long-press witness (rate 3/2). -/
def psW : PlayerState := ⟨true, 50, 300, 1, 1, 3/2, true, false, 1⟩

/-- Concrete idle session for the long-press witness. -/
def sW : Session := ⟨0, none, none, 0, 0, 1, false, false, 1⟩

/-- First step of the long-press witness scenario: pointer-down at
(100, 50) at t = 1000ms. -/
def rW1 : Session × PlayerState × List Eff :=
  handleTouchStart envW psW sW 1000 100 50 none

/-- Second step: the 500ms timer fires with the pointer still down. -/
def rW2 : Session × PlayerState × List Eff := handleLongPressFire rW1.2.1 rW1.1

/-- Third step: a small move while the long press is engaged. -/
def rW3 : Session × PlayerState × List Eff :=
  handleTouchMove envW rW2.2.1 rW2.1 101 51 none

/-- Closed witness for C5: the concrete scenario boosts the rate to 2 while
held and restores 3/2 at release. -/
theorem long_press_speed_boost_witness :
    rW2.2.1.playbackRate = 2
  ∧ (handleTouchEnd envW rW3.2.1 rW3.1 2000).2.1.playbackRate = 3 / 2 := by
  have h := long_press_speed_boost envW psW sW 1000 2000 100 50 101 51 120 50
    rfl rfl (by decide) (by norm_num)
  refine ⟨h.2.1.1, ?_⟩
  rw [show (handleTouchEnd envW rW3.2.1 rW3.1 2000).2.1 = _ from h.2.2.2.1.1]
  rfl

/-- Closed witness for C6: a second tap at x = 100 (10% of a 1000px-wide
container) within 100ms of the previous tap emits exactly one skip-back
seek call. -/
theorem double_tap_zone_skip_witness :
    (handleTouchStart envW psW ⟨900, none, none, 0, 0, 1, false, false, 1⟩
        1000 100 50 none).2.2
      = [Eff.seek (max 0 ((50 : Rat) - 10))] := by
  have h := double_tap_zone_skip envW psW
    ⟨900, none, none, 0, 0, 1, false, false, 1⟩ 1000 100 50 none
    rfl rfl (by decide) (by decide) (by decide) (by decide)
  exact (h.1 (by norm_num [envW])).1

/-- C10 counterexample: with the mirrored duration still 0 but a nonzero
mirrored position (resume point applied before metadata), a horizontal
drag classifies as SEEK with pending value clamped to 0, and pointer-up
commits an actual seek call to 0 — an effective position change, not a
no-op. -/
theorem duration_zero_gesture_counterexample :
    (handleTouchEnd ⟨100, 100, 10, 1, 1, 1, false⟩
        (handleTouchMove ⟨100, 100, 10, 1, 1, 1, false⟩
          ⟨true, 5, 0, 1, 1, 1, true, false, 1⟩
          ⟨0, some ⟨0, 50, 0⟩, none, 0, 0, 1, true, false, 1⟩ 30 50 none).2.1
        (handleTouchMove ⟨100, 100, 10, 1, 1, 1, false⟩
          ⟨true, 5, 0, 1, 1, 1, true, false, 1⟩
          ⟨0, some ⟨0, 50, 0⟩, none, 0, 0, 1, true, false, 1⟩ 30 50 none).1
        100).2.2 = [Eff.seek 0]
  ∧ (handleTouchEnd ⟨100, 100, 10, 1, 1, 1, false⟩
        (handleTouchMove ⟨100, 100, 10, 1, 1, 1, false⟩
          ⟨true, 5, 0, 1, 1, 1, true, false, 1⟩
          ⟨0, some ⟨0, 50, 0⟩, none, 0, 0, 1, true, false, 1⟩ 30 50 none).2.1
        (handleTouchMove ⟨100, 100, 10, 1, 1, 1, false⟩
          ⟨true, 5, 0, 1, 1, 1, true, false, 1⟩
          ⟨0, some ⟨0, 50, 0⟩, none, 0, 0, 1, true, false, 1⟩ 30 50 none).1
        100).2.1.currentTime = 0
  ∧ ¬ (handleTouchEnd ⟨100, 100, 10, 1, 1, 1, false⟩
        (handleTouchMove ⟨100, 100, 10, 1, 1, 1, false⟩
          ⟨true, 5, 0, 1, 1, 1, true, false, 1⟩
          ⟨0, some ⟨0, 50, 0⟩, none, 0, 0, 1, true, false, 1⟩ 30 50 none).2.1
        (handleTouchMove ⟨100, 100, 10, 1, 1, 1, false⟩
          ⟨true, 5, 0, 1, 1, 1, true, false, 1⟩
          ⟨0, some ⟨0, 50, 0⟩, none, 0, 0, 1, true, false, 1⟩ 30 50 none).1
        100).2.1.currentTime
      = (⟨true, 5, 0, 1, 1, 1, true, false, 1⟩ : PlayerState).currentTime := by
  have hm := touchMove_seek_eq ⟨100, 100, 10, 1, 1, 1, false⟩
    ⟨true, 5, 0, 1, 1, 1, true, false, 1⟩
    ⟨0, some ⟨0, 50, 0⟩, none, 0, 0, 1, true, false, 1⟩ 30 50 ⟨0, 50, 0⟩
    rfl rfl rfl rfl rfl (by norm_num) (by norm_num) (by norm_num)
  rw [hm, touchEnd_commit_seek _ _ _ 100 _ _ rfl rfl]
  norm_num

/-- C10 (amended): when the mirrored duration is 0, the guarded divisions
(`|| 1` fallbacks for the container dimensions) keep every gesture value
well-defined, the pending SEEK value is clamped to exactly 0, and
pointer-up commits a seek call to 0; the completed gesture is a position
no-op precisely when the mirrored position is already 0. -/
theorem duration_zero_seek_clamps (env : Env) (ps : PlayerState)
    (s : Session) (x y : Rat) (st : TouchPoint) (now2 : Int)
    (hlock : ps.isLocked = false) (hset : env.showSettings = false)
    (hts : s.touchStart = some st) (hg : s.gesture = none)
    (hlp : s.isLongPressing = false) (hw : env.width ≠ 0)
    (hdur : ps.duration = 0)
    (h1 : |st.y - y| < |x - st.x|) (h2 : 20 < |x - st.x|) :
    let r := handleTouchMove env ps s x y none
    let r2 := handleTouchEnd env r.2.1 r.1 now2
    r.1.gesture.map Gesture.value = some 0
    ∧ r2.2.2 = [Eff.seek 0]
    ∧ r2.2.1.currentTime = 0
    ∧ (ps.currentTime = 0 → r2.2.1.currentTime = ps.currentTime) := by
  intro r r2
  have hz : max 0 (min ps.duration
      (ps.currentTime + (x - st.x) / env.width * 90 * env.sensSeek)) = 0 := by
    rw [hdur]
    rcases le_total 0
        (ps.currentTime + (x - st.x) / env.width * 90 * env.sensSeek) with h | h
    · rw [min_eq_left h, max_self]
    · rw [min_eq_right h]
      exact max_eq_left h
  have hr : r = ({ s with longPressArmed := false,
                          initialValue := ps.currentTime,
                          gesture := some (Gesture.mk GestureAction.SEEK 0
                            ((x - st.x) / env.width * 90 * env.sensSeek)) },
                 ps, []) := by
    show handleTouchMove env ps s x y none = _
    rw [touchMove_seek_eq env ps s x y st hlock hset hts hg hlp hw h1 h2, hz]
  have hr2 : r2 = ({ s with longPressArmed := false,
                            gesture := none,
                            touchStart := none,
                            initialValue := ps.currentTime },
                   { ps with currentTime := 0, showControls := true },
                   [Eff.seek 0]) := by
    show handleTouchEnd env r.2.1 r.1 now2 = _
    rw [hr]
    exact touchEnd_commit_seek env ps
      ({ s with longPressArmed := false,
                initialValue := ps.currentTime,
                gesture := some (Gesture.mk GestureAction.SEEK 0
                  ((x - st.x) / env.width * 90 * env.sensSeek)) })
      now2 0 ((x - st.x) / env.width * 90 * env.sensSeek) rfl hlp
  refine ⟨by rw [hr]; rfl, by rw [hr2], by rw [hr2], fun hct => ?_⟩
  rw [hr2]
  exact hct.symm

/-- Closed witness for the amended C10 theorem at a concrete input with
duration 0 and position 0. -/
theorem duration_zero_seek_clamps_witness :
    (handleTouchEnd ⟨100, 100, 10, 1, 1, 1, false⟩
        (handleTouchMove ⟨100, 100, 10, 1, 1, 1, false⟩
          ⟨true, 0, 0, 1, 1, 1, true, false, 1⟩
          ⟨0, some ⟨0, 50, 0⟩, none, 0, 0, 1, true, false, 1⟩ 30 50 none).2.1
        (handleTouchMove ⟨100, 100, 10, 1, 1, 1, false⟩
          ⟨true, 0, 0, 1, 1, 1, true, false, 1⟩
          ⟨0, some ⟨0, 50, 0⟩, none, 0, 0, 1, true, false, 1⟩ 30 50 none).1
        100).2.2 = [Eff.seek 0] :=
  (duration_zero_seek_clamps ⟨100, 100, 10, 1, 1, 1, false⟩
    ⟨true, 0, 0, 1, 1, 1, true, false, 1⟩
    ⟨0, some ⟨0, 50, 0⟩, none, 0, 0, 1, true, false, 1⟩ 30 50 ⟨0, 50, 0⟩ 100
    rfl rfl rfl rfl rfl (by norm_num) rfl (by norm_num) (by norm_num)).2.1

/-! ## Google-Sheet CSV fetcher (src/utils/googleSheet.ts) -/

/-- Whitespace removed by JS `String.prototype.trim` (the characters that
can occur in a CSV line: space, tab, CR, LF, vertical tab, form feed). -/
def isJsWhitespace (c : Char) : Bool :=
  c == ' ' || c == '\t' || c == '\n' || c == '\r' || c == '\x0b' || c == '\x0c'

/-- Model of `String.prototype.trim` on a list of characters. -/
def jsTrim (l : List Char) : List Char :=
  ((l.dropWhile isJsWhitespace).reverse.dropWhile isJsWhitespace).reverse

/-- Model of `.replace(/^"|"$/g, '')`: remove one leading double quote if
present, then one trailing double quote if present. -/
def stripQuotes (l : List Char) : List Char :=
  let l1 := if l.head? = some '"' then l.tail else l
  if l1.getLast? = some '"' then l1.dropLast else l1

/-- The split `row.split(/,(?=(?:(?:[^"]*"){2})*[^"]*$)/)`: split at every
comma that is followed by an even number of double quotes up to the end of
the line (i.e. commas outside quoted fields, for balanced rows). -/
def splitCsvAux : List Char → List Char → List (List Char)
  | [], acc => [acc.reverse]
  | c :: rest, acc =>
      if c = ',' ∧ rest.count '"' % 2 = 0 then
        acc.reverse :: splitCsvAux rest []
      else splitCsvAux rest (c :: acc)

/-- `row.split(<quote-aware comma regex>)`. -/
def splitCsv (row : List Char) : List (List Char) := splitCsvAux row []

/-- `row.split(...).map(c => c.trim().replace(/^"|"$/g, ''))`. -/
def splitCols (row : List Char) : List (List Char) :=
  (splitCsv row).map (fun c => stripQuotes (jsTrim c))

/-- Model of JS `String.prototype.startsWith` on character lists. -/
def jsStartsWith (l p : List Char) : Bool := l.take p.length == p

/-- The fields of `VideoFile` (src/types.ts) that `fetchSheetData` fills
in. -/
structure VideoFile where
  id : String
  name : String
  url : String
  size : Rat
  type : String
  lastModified : Int
  sourceType : String
  sheetName : Option String
  thumbnail : Option String
deriving DecidableEq, Repr

/-- One iteration of the row mapper of `fetchSheetData`
(src/utils/googleSheet.ts, lines 71-97, the variant with the
`url.startsWith('http')` check): `none` exactly when the row is skipped.
`now` stands for `Date.now()`. -/
def processRow (sheetId : String) (now : Int) (index : Nat)
    (row : List Char) : Option VideoFile :=
  let cols := splitCols row
  if cols.length < 2 ∨ cols.getD 1 [] = [] then none
  else
    let name := if cols.getD 0 [] = [] then "Video " ++ toString (index + 1)
      else (cols.getD 0 []).asString
    let url := cols.getD 1 []
    let thumbnail := if cols.getD 2 [] = [] then none
      else some (cols.getD 2 []).asString
    if ¬ jsStartsWith url ("http".toList) then none
    else some
      { id := "sheet-" ++ sheetId ++ "-" ++ toString index,
        name := name,
        url := url.asString,
        size := 0,
        type := "video/mp4",
        lastModified := now,
        sourceType := "googlesheet",
        sheetName := some "Online DB",
        thumbnail := thumbnail }

/-- The row pipeline of `fetchSheetData` on the body rows (header already
dropped): map with index, then drop the `null`s. -/
def parseSheetRows (sheetId : String) (now : Int) (rows : List (List Char)) :
    List VideoFile :=
  (rows.enum.map (fun p => processRow sheetId now p.1 p.2)).reduceOption

/-- C3: `fetchSheetData` skips a CSV data row exactly when it has fewer
than two columns, its URL column is empty, or its URL column does not
start with the recognized scheme prefix `http`; every surviving row maps
to an entry whose id is derived from the sheet id and the row index,
whose name defaults to `Video <n>` when the name column is blank, and
whose url is the URL column. -/
theorem sheet_row_filter (sheetId : String) (now : Int) (index : Nat)
    (row : List Char) :
    (processRow sheetId now index row = none ↔
        (splitCols row).length < 2
      ∨ (splitCols row).getD 1 [] = []
      ∨ ¬ jsStartsWith ((splitCols row).getD 1 []) ("http".toList))
  ∧ (∀ v, processRow sheetId now index row = some v →
        v.id = "sheet-" ++ sheetId ++ "-" ++ toString index
      ∧ v.name = (if (splitCols row).getD 0 [] = []
          then "Video " ++ toString (index + 1)
          else ((splitCols row).getD 0 []).asString)
      ∧ v.url = ((splitCols row).getD 1 []).asString
      ∧ v.sourceType = "googlesheet") := by
  unfold processRow
  dsimp only
  by_cases hA : (splitCols row).length < 2 ∨ (splitCols row).getD 1 [] = []
  · rw [if_pos hA]
    exact ⟨⟨fun _ => hA.elim Or.inl (fun h => Or.inr (Or.inl h)), fun _ => rfl⟩,
      fun v hv => Option.noConfusion hv⟩
  · rw [if_neg hA]
    by_cases hB : jsStartsWith ((splitCols row).getD 1 []) ("http".toList) = true
    · rw [if_neg (not_not_intro hB)]
      refine ⟨⟨fun h => Option.noConfusion h, fun hdisj => ?_⟩, fun v hv => ?_⟩
      · rcases hdisj with h | h | h
        · exact absurd (Or.inl h) hA
        · exact absurd (Or.inr h) hA
        · exact absurd hB h
      · rw [← Option.some.inj hv]
        exact ⟨rfl, rfl, rfl, rfl⟩
    · rw [if_pos hB]
      exact ⟨⟨fun _ => Or.inr (Or.inr hB), fun _ => rfl⟩,
        fun v hv => Option.noConfusion hv⟩

/-- Closed witness for C3 on two concrete rows: `A,http://x` survives with
the derived id, and `Bad,,` is skipped for its empty URL column. -/
theorem sheet_row_filter_witness :
    processRow "S" 7 0 ("A,http://x".toList) ≠ none
  ∧ processRow "S" 7 1 ("Bad,,".toList) = none := by
  constructor
  · intro h
    have hd := (sheet_row_filter "S" 7 0 ("A,http://x".toList)).1.mp h
    revert hd
    decide
  · exact (sheet_row_filter "S" 7 1 ("Bad,,".toList)).1.mpr
      (Or.inr (Or.inl (by decide)))

/-- A CSV field as rendered into a row: raw unquoted text, or quoted text
whose content may contain commas. -/
inductive CsvField where
  | raw (s : List Char)
  | quoted (s : List Char)
deriving DecidableEq, Repr

/-- How a field appears in the CSV line. -/
def renderField : CsvField → List Char
  | CsvField.raw s => s
  | CsvField.quoted s => '"' :: (s ++ ['"'])

/-- The value the field carries. -/
def fieldValue : CsvField → List Char
  | CsvField.raw s => s
  | CsvField.quoted s => s

/-- Well-formed fields: a raw field contains no quote and no comma and no
edge whitespace; a quoted field's content contains no quote. -/
def wfField : CsvField → Prop
  | CsvField.raw s => '"' ∉ s ∧ ',' ∉ s ∧ jsTrim s = s
  | CsvField.quoted s => '"' ∉ s

instance : DecidablePred wfField := fun f => by
  cases f <;> dsimp [wfField] <;> infer_instance

/-- A row as the comma-join of its rendered fields. -/
def renderRow : List CsvField → List Char
  | [] => []
  | [f] => renderField f
  | f :: fs => renderField f ++ ',' :: renderRow fs

/-- No comma of the first list is a split point when it is followed by the
second: every comma inside sees an odd number of quotes to its right. -/
def noSplitIn : List Char → List Char → Prop
  | [], _ => True
  | c :: cs, t => (c = ',' → (cs ++ t).count '"' % 2 = 1) ∧ noSplitIn cs t

theorem splitCsvAux_append (c t acc : List Char) (h : noSplitIn c t) :
    splitCsvAux (c ++ t) acc = splitCsvAux t (c.reverse ++ acc) := by
  induction c generalizing acc with
  | nil => rfl
  | cons ch cs ih =>
      obtain ⟨h1, h2⟩ := h
      rw [List.cons_append]
      show (if ch = ',' ∧ (cs ++ t).count '"' % 2 = 0 then
          acc.reverse :: splitCsvAux (cs ++ t) []
        else splitCsvAux (cs ++ t) (ch :: acc))
        = splitCsvAux t ((ch :: cs).reverse ++ acc)
      rw [if_neg (fun hc => by have := h1 hc.1; omega)]
      rw [ih (ch :: acc) h2, List.reverse_cons, List.append_assoc]
      rfl

theorem noSplitIn_of_no_comma {c : List Char} (t : List Char)
    (h : ',' ∉ c) : noSplitIn c t := by
  induction c with
  | nil => trivial
  | cons ch cs ih =>
      refine ⟨fun hc => ?_, ih (fun hm => h (List.mem_cons_of_mem _ hm))⟩
      subst hc
      exact absurd (List.mem_cons_self _ _) h

theorem noSplitIn_append_quote {s : List Char} (t : List Char)
    (hq : '"' ∉ s) (ht : t.count '"' % 2 = 0) :
    noSplitIn (s ++ ['"']) t := by
  induction s with
  | nil => exact ⟨fun hc => absurd hc (by decide), trivial⟩
  | cons ch cs ih =>
      have hq1 : '"' ∉ cs := fun hm => hq (List.mem_cons_of_mem _ hm)
      refine ⟨fun _ => ?_, ih hq1⟩
      have hcs : cs.count '"' = 0 := List.count_eq_zero.mpr hq1
      show List.count '"' ((cs ++ ['"']) ++ t) % 2 = 1
      rw [List.count_append, List.count_append, hcs]
      have h1 : List.count '"' ['"'] = 1 := by decide
      rw [h1]
      omega

theorem noSplitIn_renderField (f : CsvField) (t : List Char)
    (hf : wfField f) (ht : t.count '"' % 2 = 0) :
    noSplitIn (renderField f) t := by
  cases f with
  | raw s => exact noSplitIn_of_no_comma t hf.2.1
  | quoted s =>
      refine ⟨fun hc => absurd hc (by decide), ?_⟩
      exact noSplitIn_append_quote t hf ht

theorem count_renderRow_even (fs : List CsvField)
    (h : ∀ f ∈ fs, wfField f) : (renderRow fs).count '"' % 2 = 0 := by
  induction fs with
  | nil => rfl
  | cons f fs ih =>
      have hf := h f (List.mem_cons_self _ _)
      have hcount : (renderField f).count '"' % 2 = 0 := by
        cases f with
        | raw s =>
            rw [renderField, List.count_eq_zero.mpr hf.1]
        | quoted s =>
            show List.count '"' ('"' :: (s ++ ['"'])) % 2 = 0
            rw [List.count_cons, List.count_append,
              List.count_eq_zero.mpr hf]
            have h1 : List.count '"' ['"'] = 1 := by decide
            rw [h1]
            simp
      cases fs with
      | nil => exact hcount
      | cons g gs =>
          have ih2 := ih (fun x hx => h x (List.mem_cons_of_mem _ hx))
          rw [show renderRow (f :: g :: gs)
              = renderField f ++ ',' :: renderRow (g :: gs) from rfl]
          rw [List.count_append, List.count_cons]
          have hcq : (((',' : Char) == '"') : Bool) = false := by decide
          rw [hcq]
          simp only [Bool.false_eq_true, if_false]
          omega

theorem splitCsv_renderRow (fs : List CsvField) (hne : fs ≠ [])
    (h : ∀ f ∈ fs, wfField f) :
    splitCsv (renderRow fs) = fs.map renderField := by
  induction fs with
  | nil => exact absurd rfl hne
  | cons f fs ih =>
      have hf := h f (List.mem_cons_self _ _)
      cases fs with
      | nil =>
          show splitCsvAux (renderRow [f]) [] = [renderField f]
          rw [show renderRow [f] = renderField f from rfl]
          have h1 : noSplitIn (renderField f) [] :=
            noSplitIn_renderField f [] hf rfl
          have h2 := splitCsvAux_append (renderField f) [] [] h1
          rw [List.append_nil] at h2
          rw [h2]
          simp [splitCsvAux]
      | cons g gs =>
          have hrest : ∀ x ∈ g :: gs, wfField x :=
            fun x hx => h x (List.mem_cons_of_mem _ hx)
          have heven : (renderRow (g :: gs)).count '"' % 2 = 0 :=
            count_renderRow_even _ hrest
          have heven2 : ((',' :: renderRow (g :: gs)).count '"') % 2 = 0 := by
            rw [List.count_cons]
            have hcq : (((',' : Char) == '"') : Bool) = false := by decide
            rw [hcq]
            simp only [Bool.false_eq_true, if_false]
            omega
          show splitCsvAux (renderRow (f :: g :: gs)) [] = _
          rw [show renderRow (f :: g :: gs)
              = renderField f ++ ',' :: renderRow (g :: gs) from rfl]
          rw [splitCsvAux_append _ _ _ (noSplitIn_renderField f _ hf heven2)]
          have hstep : splitCsvAux (',' :: renderRow (g :: gs))
              ((renderField f).reverse ++ [])
              = if (',' : Char) = ','
                  ∧ (renderRow (g :: gs)).count '"' % 2 = 0
                then ((renderField f).reverse ++ []).reverse
                  :: splitCsvAux (renderRow (g :: gs)) []
                else splitCsvAux (renderRow (g :: gs))
                  (',' :: ((renderField f).reverse ++ [])) := rfl
          rw [hstep, if_pos ⟨rfl, heven⟩, List.append_nil,
            List.reverse_reverse]
          rw [show splitCsvAux (renderRow (g :: gs)) []
              = splitCsv (renderRow (g :: gs)) from rfl]
          rw [ih (by simp) hrest]
          rfl

theorem stripQuotes_jsTrim_renderField (f : CsvField) (hf : wfField f) :
    stripQuotes (jsTrim (renderField f)) = fieldValue f := by
  cases f with
  | raw s =>
      show stripQuotes (jsTrim s) = s
      rw [hf.2.2]
      unfold stripQuotes
      have h1 : ¬ s.head? = some '"' := by
        cases s with
        | nil => simp
        | cons c cs =>
            simp only [List.head?_cons, Option.some.injEq]
            intro hc
            exact hf.1 (hc ▸ List.mem_cons_self _ _)
      rw [if_neg h1]
      have h2 : ¬ s.getLast? = some '"' := by
        intro hc
        obtain ⟨hne2, heq⟩ :=
          List.mem_getLast?_eq_getLast (show '"' ∈ s.getLast? from hc)
        exact hf.1 (by rw [heq]; exact List.getLast_mem hne2)
      rw [if_neg h2]
  | quoted s =>
      show stripQuotes (jsTrim ('"' :: (s ++ ['"']))) = s
      have htrim : jsTrim ('"' :: (s ++ ['"'])) = '"' :: (s ++ ['"']) := by
        unfold jsTrim
        rw [List.dropWhile_cons_of_neg
          (show ¬ (isJsWhitespace '"' = true) by decide)]
        rw [show ('"' :: (s ++ ['"'])).reverse
            = '"' :: (s.reverse ++ ['"']) by simp]
        rw [List.dropWhile_cons_of_neg
          (show ¬ (isJsWhitespace '"' = true) by decide)]
        simp
      rw [htrim]
      unfold stripQuotes
      rw [if_pos (show ('"' :: (s ++ ['"'])).head? = some '"' from rfl),
        show ('"' :: (s ++ ['"'])).tail = s ++ ['"'] from rfl]
      rw [if_pos (List.getLast?_concat s), List.dropLast_concat]

/-- C9: the CSV parser splits a line only at commas outside double-quoted
fields and then trims and unquotes each column, so a well-formed row
round-trips: each field's inner value (including quoted values containing
commas) comes back as exactly one column. -/
theorem csv_quoted_comma_roundtrip (fs : List CsvField) (hne : fs ≠ [])
    (h : ∀ f ∈ fs, wfField f) :
    splitCols (renderRow fs) = fs.map fieldValue := by
  unfold splitCols
  rw [splitCsv_renderRow fs hne h, List.map_map]
  exact List.map_congr_left
    (fun f hf => stripQuotes_jsTrim_renderField f (h f hf))

/-- Closed witness for C9: the row `"a,b",http://x` parses into the two
columns `a,b` and `http://x`. -/
theorem csv_quoted_comma_roundtrip_witness :
    splitCols ("\x22a,b\x22,http://x".toList)
      = ["a,b".toList, "http://x".toList] := by
  have h := csv_quoted_comma_roundtrip
    [CsvField.quoted ("a,b".toList), CsvField.raw ("http://x".toList)]
    (by decide) (by decide)
  exact h

/-- A concrete media entry used by witnesses. -/
def vfW : VideoFile :=
  { id := "sheet-S-0", name := "A", url := "http://x", size := 0,
    type := "video/mp4", lastModified := 7, sourceType := "googlesheet",
    sheetName := some "Online DB", thumbnail := none }

/-! ## Remote-catalog cache policy (App, VideoPlayer.tsx lines 952-1000) -/

/-- `CachedSheetData` from `src/types.ts`. -/
structure CachedSheetData where
  timestamp : Int
  data : List VideoFile
deriving DecidableEq, Repr

/-- Observable outcome of one run of `loadSheets`: which URLs were fetched
over the network (in order), the resulting `sheetVideos` state, and the
cache record afterwards. -/
structure LoadResult where
  fetchedUrls : List String
  sheetVideos : List VideoFile
  cacheAfter : Option CachedSheetData
deriving DecidableEq, Repr

/-- `CACHE_DURATION` (one hour in ms). -/
def CACHE_DURATION : Int := 3600 * 1000

/-- The aggregate of the fetch loop: `fetchSheetData` results concatenated,
skipping empty results (`if (videos.length > 0)`). -/
def aggregateFetch (urls : List String)
    (fetchResult : String → List VideoFile) : List VideoFile :=
  urls.foldl (fun acc u =>
    let videos := fetchResult u
    if 0 < videos.length then acc ++ videos else acc) []

/-- `loadSheets` (lines 952-1000): the cache decision
`shouldFetch = !cached || (now - cached.timestamp > CACHE_DURATION) ||
(cached.data.length === 0 && urls.length > 0)`, serving the cache with no
network call when fresh, else fetching every configured URL once and
replacing the cache only when the aggregate is non-empty.  `fetchResult`
stands for the (exception-free) result of `fetchSheetData` per URL. -/
def loadSheets (enableOnlineDB : Bool) (urls : List String)
    (cached : Option CachedSheetData) (now : Int)
    (fetchResult : String → List VideoFile) : LoadResult :=
  if enableOnlineDB = false ∨ urls = [] then ⟨[], [], cached⟩
  else
    let shouldFetch : Bool :=
      match cached with
      | none => true
      | some c =>
          decide (CACHE_DURATION < now - c.timestamp)
            || (decide (c.data.length = 0) && decide (0 < urls.length))
    match cached, shouldFetch with
    | some c, false => ⟨[], c.data, some c⟩
    | _, _ =>
        let allVideos := aggregateFetch urls fetchResult
        let cacheAfter := if 0 < allVideos.length
          then some ⟨now, allVideos⟩ else cached
        ⟨urls, allVideos, cacheAfter⟩

/-- `handleManualRefresh` (lines 1140-1144): removes the cache record
unconditionally (`localStorage.removeItem('affi_sheet_cache')`). -/
def handleManualRefresh (_cached : Option CachedSheetData) :
    Option CachedSheetData := none

/-- C4: with the online DB enabled and at least one source configured, the
network fetch over all configured URLs happens if and only if there is no
cache record, the record is older than one hour, or the cached list is
empty; otherwise the cached list is served with no fetch and the cache is
untouched.  When fetching, the cache record is replaced exactly when the
aggregate result is non-empty.  The manual refresh action removes the
cache record unconditionally, so the next evaluation re-fetches. -/
theorem sheet_cache_policy (urls : List String)
    (cached : Option CachedSheetData) (now : Int)
    (fetchResult : String → List VideoFile) (hurls : urls ≠ []) :
    (cached = none →
        (loadSheets true urls cached now fetchResult).fetchedUrls = urls)
  ∧ (∀ c, cached = some c →
        ((CACHE_DURATION < now - c.timestamp ∨ c.data = []) →
            (loadSheets true urls cached now fetchResult).fetchedUrls = urls
          ∧ (loadSheets true urls cached now fetchResult).sheetVideos
              = aggregateFetch urls fetchResult
          ∧ (aggregateFetch urls fetchResult = [] →
              (loadSheets true urls cached now fetchResult).cacheAfter
                = some c)
          ∧ (aggregateFetch urls fetchResult ≠ [] →
              (loadSheets true urls cached now fetchResult).cacheAfter
                = some ⟨now, aggregateFetch urls fetchResult⟩))
      ∧ (¬ (CACHE_DURATION < now - c.timestamp ∨ c.data = []) →
            (loadSheets true urls cached now fetchResult).fetchedUrls = []
          ∧ (loadSheets true urls cached now fetchResult).sheetVideos
              = c.data
          ∧ (loadSheets true urls cached now fetchResult).cacheAfter
              = some c))
  ∧ (cached = none →
        (aggregateFetch urls fetchResult = [] →
            (loadSheets true urls cached now fetchResult).cacheAfter = none)
      ∧ (aggregateFetch urls fetchResult ≠ [] →
            (loadSheets true urls cached now fetchResult).cacheAfter
              = some ⟨now, aggregateFetch urls fetchResult⟩))
  ∧ handleManualRefresh cached = none
  ∧ (loadSheets true urls (handleManualRefresh cached) now
        fetchResult).fetchedUrls = urls := by
  have hguard : ¬ ((true = false) ∨ urls = []) := by
    rintro (h | h)
    · exact Bool.noConfusion h
    · exact hurls h
  have hlen : 0 < urls.length := List.length_pos.mpr hurls
  refine ⟨?_, ?_, ?_, rfl, ?_⟩
  · rintro rfl
    unfold loadSheets
    rw [if_neg hguard]
  · intro c hc
    subst hc
    constructor
    · intro hstale
      have hsf : (decide (CACHE_DURATION < now - c.timestamp)
          || (decide (c.data.length = 0) && decide (0 < urls.length)))
            = true := by
        rcases hstale with h | h
        · simp [h]
        · simp [h, hlen]
      unfold loadSheets
      rw [if_neg hguard]
      dsimp only
      rw [hsf]
      dsimp only
      refine ⟨rfl, rfl, fun hagg => ?_, fun hagg => ?_⟩
      · rw [if_neg (by simp [hagg])]
      · rw [if_pos (by simpa [List.length_pos] using hagg)]
    · intro hfresh
      push_neg at hfresh
      have hsf : (decide (CACHE_DURATION < now - c.timestamp)
          || (decide (c.data.length = 0) && decide (0 < urls.length)))
            = false := by
        simp [hfresh.1, hfresh.2]
      unfold loadSheets
      rw [if_neg hguard]
      dsimp only
      rw [hsf]
      exact ⟨rfl, rfl, rfl⟩
  · rintro rfl
    unfold loadSheets
    rw [if_neg hguard]
    dsimp only
    refine ⟨fun hagg => ?_, fun hagg => ?_⟩
    · rw [if_neg (by simp [hagg])]
    · rw [if_pos (by simpa [List.length_pos] using hagg)]
  · unfold loadSheets handleManualRefresh
    rw [if_neg hguard]

/-- Closed witness for C4 at a one-source configuration: a fresh cache is
served without fetching, and a stale cache triggers the fetch of every
configured URL. -/
theorem sheet_cache_policy_witness :
    (loadSheets true ["u"] (some ⟨0, [vfW]⟩) 1800000 (fun _ => [])).fetchedUrls
        = []
  ∧ (loadSheets true ["u"] (some ⟨0, [vfW]⟩) 1800000
        (fun _ => [])).sheetVideos = [vfW]
  ∧ (loadSheets true ["u"] (some ⟨0, [vfW]⟩) 3700000
        (fun _ => [])).fetchedUrls = ["u"] := by
  have h1 := ((sheet_cache_policy ["u"] (some ⟨0, [vfW]⟩) 1800000 (fun _ => [])
    (by simp)).2.1 ⟨0, [vfW]⟩ rfl).2 (by decide)
  have h2 := ((sheet_cache_policy ["u"] (some ⟨0, [vfW]⟩) 3700000 (fun _ => [])
    (by simp)).2.1 ⟨0, [vfW]⟩ rfl).1 (Or.inl (by decide))
  exact ⟨h1.1, h1.2.1, h2.1⟩

/-! ## Global settings initializer (App, VideoPlayer.tsx lines 914-928) -/

/-- A JSON value as stored in `localStorage` for the settings object. -/
inductive JVal where
  | jnull
  | jbool (b : Bool)
  | jnum (q : Rat)
  | jstr (s : String)
  | jarr (elems : List JVal)

/-- The `defaults` object of the settings initializer, as an ordered
key/value list. -/
def defaultSettings : List (String × JVal) :=
  [("themeColor", JVal.jstr "#BB86FC"),
   ("seekTime", JVal.jnum 10),
   ("defaultSpeed", JVal.jnum 1),
   ("autoPlayNext", JVal.jbool true),
   ("performanceMode", JVal.jbool false),
   ("enableOnlineDB", JVal.jbool true),
   ("googleSheetUrls", JVal.jarr []),
   ("savedStreams", JVal.jarr []),
   ("viewMode", JVal.jstr "grid")]

/-- Property lookup on a JS object modelled as a key/value list. -/
def lookupKey (obj : List (String × JVal)) (k : String) : Option JVal :=
  (obj.find? (fun p => p.1 == k)).map Prod.snd

/-- JS object spread `{...a, ...b}`: a's keys in their order, with b's
value where b also binds the key, followed by b's keys absent from a. -/
def jsSpread (a b : List (String × JVal)) : List (String × JVal) :=
  a.map (fun p => match lookupKey b p.1 with
                  | some v => (p.1, v)
                  | none => p)
    ++ b.filter (fun p => (lookupKey a p.1).isNone)

/-- The settings initializer `{ ...defaults, ...saved }` on the parsed
stored object. -/
def loadSettings (saved : List (String × JVal)) : List (String × JVal) :=
  jsSpread defaultSettings saved

theorem lookupKey_cons_of_pos (p : String × JVal)
    (obj : List (String × JVal)) {k : String} (h : p.1 = k) :
    lookupKey (p :: obj) k = some p.2 := by
  unfold lookupKey
  rw [List.find?_cons_of_pos _ (by simp [h])]
  rfl

theorem lookupKey_cons_of_neg (p : String × JVal)
    (obj : List (String × JVal)) {k : String} (h : ¬ p.1 = k) :
    lookupKey (p :: obj) k = lookupKey obj k := by
  unfold lookupKey
  rw [List.find?_cons_of_neg _ (by simp [h])]

theorem lookupKey_append (a b : List (String × JVal)) (k : String) :
    lookupKey (a ++ b) k = (lookupKey a k).or (lookupKey b k) := by
  unfold lookupKey
  rw [List.find?_append]
  cases List.find? (fun p => p.1 == k) a <;> rfl

theorem lookupKey_mapOverride (a b : List (String × JVal)) (k : String) :
    lookupKey (a.map (fun p => match lookupKey b p.1 with
        | some v => (p.1, v)
        | none => p)) k
      = (lookupKey a k).map (fun v => (lookupKey b k).getD v) := by
  induction a with
  | nil => rfl
  | cons p a ih =>
      rw [List.map_cons]
      by_cases hp : p.1 = k
      · cases hb : lookupKey b p.1 with
        | some v =>
            dsimp only
            rw [lookupKey_cons_of_pos (p.1, v) _ hp,
              lookupKey_cons_of_pos p _ hp]
            rw [Option.map_some']
            rw [show lookupKey b k = some v from hp ▸ hb]
            rfl
        | none =>
            dsimp only
            rw [lookupKey_cons_of_pos p _ hp, lookupKey_cons_of_pos p _ hp]
            rw [Option.map_some']
            rw [show lookupKey b k = none from hp ▸ hb]
            rfl
      · have hkey : (match lookupKey b p.1 with
            | some v => (p.1, v)
            | none => p).1 = p.1 := by
          cases lookupKey b p.1 <;> rfl
        rw [lookupKey_cons_of_neg _ _ (by rw [hkey]; exact hp),
          lookupKey_cons_of_neg _ _ hp]
        exact ih

theorem lookupKey_filter_of_none (a b : List (String × JVal)) (k : String)
    (h : lookupKey a k = none) :
    lookupKey (b.filter (fun p => (lookupKey a p.1).isNone)) k
      = lookupKey b k := by
  induction b with
  | nil => rfl
  | cons q b ih =>
      by_cases hq : q.1 = k
      · rw [List.filter_cons, if_pos (by simp [hq, h])]
        rw [lookupKey_cons_of_pos _ _ hq, lookupKey_cons_of_pos _ _ hq]
      · by_cases hk : ((lookupKey a q.1).isNone : Bool) = true
        · rw [List.filter_cons, if_pos hk]
          rw [lookupKey_cons_of_neg _ _ hq, lookupKey_cons_of_neg _ _ hq]
          exact ih
        · rw [List.filter_cons, if_neg hk, ih,
            lookupKey_cons_of_neg _ _ hq]

theorem lookupKey_isSome_of_mem_keys (a : List (String × JVal)) (k : String)
    (h : k ∈ a.map Prod.fst) : (lookupKey a k).isSome := by
  induction a with
  | nil => simp at h
  | cons p a ih =>
      rw [List.map_cons, List.mem_cons] at h
      by_cases hp : p.1 = k
      · rw [lookupKey_cons_of_pos _ _ hp]
        rfl
      · rw [lookupKey_cons_of_neg _ _ hp]
        exact ih (h.resolve_left (fun he => hp he.symm))

/-- C8: loading persisted settings merges them over the defaults: the
result binds every current default key; a key present in the stored
object keeps its stored value; a key absent from the stored object gets
the default value. -/
theorem settings_defaults_merge (saved : List (String × JVal))
    (hsub : ∀ p ∈ saved, p.1 ∈ defaultSettings.map Prod.fst) :
    (∀ k ∈ defaultSettings.map Prod.fst,
        (lookupKey (loadSettings saved) k).isSome)
  ∧ (∀ k v, lookupKey saved k = some v →
        lookupKey (loadSettings saved) k = some v)
  ∧ (∀ k, lookupKey saved k = none →
        lookupKey (loadSettings saved) k = lookupKey defaultSettings k) := by
  refine ⟨fun k hk => ?_, fun k v hv => ?_, fun k hnone => ?_⟩
  · unfold loadSettings jsSpread
    rw [lookupKey_append, lookupKey_mapOverride]
    obtain ⟨v, hv⟩ := Option.isSome_iff_exists.mp
      (lookupKey_isSome_of_mem_keys defaultSettings k hk)
    rw [hv]
    rfl
  · unfold loadSettings jsSpread
    rw [lookupKey_append, lookupKey_mapOverride]
    cases hd : lookupKey defaultSettings k with
    | some dv =>
        rw [Option.map_some', hv]
        rfl
    | none =>
        rw [show Option.map (fun v => (lookupKey saved k).getD v)
            (none : Option JVal) = none from rfl]
        rw [show Option.or none (lookupKey (saved.filter
            (fun p => (lookupKey defaultSettings p.1).isNone)) k)
          = lookupKey (saved.filter
            (fun p => (lookupKey defaultSettings p.1).isNone)) k from rfl]
        rw [lookupKey_filter_of_none _ _ _ hd]
        exact hv
  · unfold loadSettings jsSpread
    rw [lookupKey_append, lookupKey_mapOverride]
    cases hd : lookupKey defaultSettings k with
    | some dv =>
        rw [Option.map_some', hnone]
        rfl
    | none =>
        rw [show Option.map (fun v => (lookupKey saved k).getD v)
            (none : Option JVal) = none from rfl]
        rw [show Option.or none (lookupKey (saved.filter
            (fun p => (lookupKey defaultSettings p.1).isNone)) k)
          = lookupKey (saved.filter
            (fun p => (lookupKey defaultSettings p.1).isNone)) k from rfl]
        rw [lookupKey_filter_of_none _ _ _ hd]
        exact hnone

/-- Closed witness for C8: a stored object carrying only `seekTime` keeps
its stored value and gets the default `viewMode`. -/
theorem settings_defaults_merge_witness :
    lookupKey (loadSettings [("seekTime", JVal.jnum 30)]) "seekTime"
        = some (JVal.jnum 30)
  ∧ lookupKey (loadSettings [("seekTime", JVal.jnum 30)]) "viewMode"
        = some (JVal.jstr "grid") := by
  have h := settings_defaults_merge [("seekTime", JVal.jnum 30)]
    (by intro p hp
        rw [List.mem_singleton] at hp
        subst hp
        rw [show defaultSettings.map Prod.fst
            = ["themeColor", "seekTime", "defaultSpeed", "autoPlayNext",
               "performanceMode", "enableOnlineDB", "googleSheetUrls",
               "savedStreams", "viewMode"] from rfl]
        simp)
  refine ⟨h.2.1 "seekTime" (JVal.jnum 30) ?_, ?_⟩
  · rw [lookupKey_cons_of_pos _ _ rfl]
  · rw [h.2.2 "viewMode" (by rw [lookupKey_cons_of_neg _ _ (by simp)]; rfl)]
    rfl

/-! ## Sleep timer (VideoPlayer.tsx lines 163-179) -/

/-- The guard of the sleep-timer effect
(`if (!state.sleepTimer || !state.playing) return;`): an interval exists
only while `sleepTimer` is truthy (non-null and nonzero) and playing. -/
def sleepIntervalActive (sleepTimer : Option Int) (playing : Bool) : Bool :=
  (match sleepTimer with
   | none => false
   | some n => decide (¬ n = 0)) && playing

/-- One firing of the interval callback (lines 166-175): decrement while
`prev.sleepTimer && prev.sleepTimer > 0`, otherwise the "timer ended"
branch pauses playback and disarms.  Returns the new `sleepTimer`, the new
`playing` flag and whether `pause()` was called. -/
def sleepTick (sleepTimer : Option Int) (playing : Bool) :
    Option Int × Bool × Bool :=
  match sleepTimer with
  | some n => if 0 < n then (some (n - 1), playing, false)
              else (none, false, true)
  | none => (none, false, true)

/-- Player state seen by the sleep-timer machinery, plus a count of
`pause()` calls. -/
structure SleepSim where
  sleepTimer : Option Int
  playing : Bool
  pauseCount : Nat
deriving DecidableEq, Repr

/-- One minute of wall time: if the interval guard lets an interval exist,
its callback fires once (each firing changes `sleepTimer`, so the effect
re-runs and decides afresh); otherwise nothing happens. -/
def sleepMinute (st : SleepSim) : SleepSim :=
  if sleepIntervalActive st.sleepTimer st.playing then
    let r := sleepTick st.sleepTimer st.playing
    ⟨r.1, r.2.1, st.pauseCount + (if r.2.2 then 1 else 0)⟩
  else st

theorem sleepMinute_pos (m : Int) (pc : Nat) (h : 0 < m) :
    sleepMinute ⟨some m, true, pc⟩ = ⟨some (m - 1), true, pc⟩ := by
  unfold sleepMinute
  rw [if_pos (by simp [sleepIntervalActive]; omega)]
  unfold sleepTick
  dsimp only
  rw [if_pos h]
  rfl

/-- C7 (code behavior at the claimed property): while playing, every
minute decrements the armed value by one, so after exactly N minutes the
remaining value reaches 0 — but the effect guard treats 0 as falsy, so
from that point every further minute is a no-op: `pause()` is never
called (the pause count stays 0), `playing` stays true, and the timer is
left at `some 0`, never reset to `null`.  Minutes while paused never
decrement. -/
theorem sleep_timer_zero_never_pauses :
    (∀ N i : Nat, i ≤ N →
        sleepMinute^[i] ⟨some (N : Int), true, 0⟩
          = ⟨some ((N : Int) - i), true, 0⟩)
  ∧ (∀ N : Nat, sleepMinute^[N] ⟨some (N : Int), true, 0⟩
        = ⟨some 0, true, 0⟩)
  ∧ (∀ k st, st = (⟨some 0, true, 0⟩ : SleepSim) →
        sleepMinute^[k] st = st)
  ∧ (∀ st : SleepSim, st.playing = false → sleepMinute st = st) := by
  have hdec : ∀ N i : Nat, i ≤ N →
      sleepMinute^[i] ⟨some (N : Int), true, 0⟩
        = ⟨some ((N : Int) - i), true, 0⟩ := by
    intro N i
    induction i with
    | zero => intro _; simp
    | succ i ih =>
        intro hle
        rw [Function.iterate_succ_apply', ih (Nat.le_of_succ_le hle)]
        rw [sleepMinute_pos _ _ (by omega)]
        congr 1
        push_cast
        ring
  have hfix : ∀ k : Nat, sleepMinute^[k] (⟨some 0, true, 0⟩ : SleepSim)
      = ⟨some 0, true, 0⟩ := by
    intro k
    induction k with
    | zero => rfl
    | succ k ih =>
        rw [Function.iterate_succ_apply', ih]
        unfold sleepMinute
        rw [if_neg (by simp [sleepIntervalActive])]
  refine ⟨hdec, fun N => ?_, fun k st hst => ?_, fun st hp => ?_⟩
  · have := hdec N N le_rfl
    simpa using this
  · rw [hst]
    exact hfix k
  · unfold sleepMinute
    rw [if_neg (by simp [sleepIntervalActive, hp])]

/-- Closed witness for C7's code-behavior theorem: arming 2 minutes and
playing, two minutes later the value is 0 with no pause; a third minute
changes nothing; a paused state is untouched. -/
theorem sleep_timer_zero_never_pauses_witness :
    sleepMinute^[2] ⟨some 2, true, 0⟩ = ⟨some 0, true, 0⟩
  ∧ sleepMinute^[5] ⟨some 0, true, 0⟩ = ⟨some 0, true, 0⟩
  ∧ sleepMinute ⟨some 3, false, 0⟩ = ⟨some 3, false, 0⟩ := by
  refine ⟨?_, ?_, ?_⟩
  · have h := sleep_timer_zero_never_pauses.2.1 2
    simpa using h
  · exact sleep_timer_zero_never_pauses.2.2.1 5 _ rfl
  · exact sleep_timer_zero_never_pauses.2.2.2 ⟨some 3, false, 0⟩ rfl

end Affiplayer
